import Mathlib

/-!
Shallow embedding of the mongoquery repository (Go) in Lean 4.

The repository translates SQL-like condition strings and fluent builder
calls into an ordered MongoDB aggregation pipeline.  The core logic lives
in `builder/conditions.go`, `builder/aggregation.go`, `builder/base.go`,
the operator mapper, `parseAlias`, `parseExpression` and the SQL clause
extractor (`parser` package).  Pure Go string functions from the standard
library (`strings.Split`, `strings.Fields`, `strings.Contains`,
`strings.Index`, `strings.ToUpper`, `strings.TrimSpace`, `strings.Trim`,
`strconv.Atoi`, `strconv.ParseInt`, `strconv.ParseFloat`) are modelled on
`List Char`; ASCII case mapping is used (the inputs of interest are
ASCII), and byte indices coincide with character indices on ASCII input.
-/

namespace MQ

/-- ASCII upper-casing of one character (models Go `strings.ToUpper` on
the ASCII range, which is the range all keyword detection uses). -/
def asciiUpper (c : Char) : Char :=
  if 'a' ≤ c ∧ c ≤ 'z' then Char.ofNat (c.toNat - 32) else c

/-- ASCII lower-casing of one character. -/
def asciiLower (c : Char) : Char :=
  if 'A' ≤ c ∧ c ≤ 'Z' then Char.ofNat (c.toNat + 32) else c

/-- Whitespace as recognized by Go `unicode.IsSpace` (ASCII part plus
U+0085 and U+00A0); used by `strings.Fields` and `strings.TrimSpace`. -/
def goIsSpace (c : Char) : Bool :=
  c = ' ' ∨ c = '\t' ∨ c = '\n' ∨ c = Char.ofNat 11 ∨ c = Char.ofNat 12 ∨
  c = '\r' ∨ c = Char.ofNat 133 ∨ c = Char.ofNat 160

/-- The single-quote character (code point 39), the cutset of
`strings.Trim(parts[2], ...)` in `parseCondition`. -/
def quoteChar : Char := Char.ofNat 39

/-- Go `strings.ToUpper` (ASCII model). -/
def goToUpper (s : String) : String := String.mk (s.data.map asciiUpper)

/-- Go `strings.ToLower` (ASCII model). -/
def goToLower (s : String) : String := String.mk (s.data.map asciiLower)

/-- Index of the first occurrence of `sub` in `s` (`strings.Index`),
`none` playing the role of Go's `-1`. -/
def idxAux (sub : List Char) : List Char → Option Nat
  | [] => if sub.isPrefixOf [] then some 0 else none
  | c :: t => if sub.isPrefixOf (c :: t) then some 0 else (idxAux sub t).map (· + 1)

/-- Go `strings.Index`. -/
def goIndexOf (s sub : String) : Option Nat := idxAux sub.data s.data

/-- Go `strings.Contains`. -/
def goContains (s sub : String) : Bool := (goIndexOf s sub).isSome

/-- Fuel-driven splitting on a (non-empty) separator; the fuel is always
`s.length + 1`, enough to consume the whole string. -/
def splitAux (sep : List Char) : Nat → List Char → List (List Char)
  | 0, s => [s]
  | fuel + 1, s =>
    match idxAux sep s with
    | none => [s]
    | some i => s.take i :: splitAux sep fuel (s.drop (i + sep.length))

/-- Go `strings.Split` (for a non-empty separator; the repository never
splits on an empty separator). -/
def goSplit (s sep : String) : List String :=
  if sep.data.isEmpty then (s.data.map fun c => String.mk [c])
  else (splitAux sep.data (s.data.length + 1) s.data).map String.mk

/-- Go `strings.SplitN(s, sep, 2)`: at most one split, at the first
occurrence of the separator. -/
def goSplitN2 (s sep : String) : List String :=
  match goIndexOf s sep with
  | none => [s]
  | some i => [String.mk (s.data.take i), String.mk (s.data.drop (i + sep.data.length))]

/-- Helper for Go `strings.Fields`: accumulates the current word. -/
def fieldsAux : List Char → List Char → List (List Char)
  | [], acc => if acc.isEmpty then [] else [acc.reverse]
  | c :: t, acc =>
    if goIsSpace c then
      if acc.isEmpty then fieldsAux t [] else acc.reverse :: fieldsAux t []
    else fieldsAux t (c :: acc)

/-- Go `strings.Fields`: split around runs of whitespace. -/
def goFields (s : String) : List String := (fieldsAux s.data []).map String.mk

/-- Drop trailing characters satisfying `p`. -/
def dropTail (p : Char → Bool) (l : List Char) : List Char :=
  (l.reverse.dropWhile p).reverse

/-- Go `strings.TrimSpace`. -/
def goTrimSpace (s : String) : String :=
  String.mk (dropTail goIsSpace (s.data.dropWhile goIsSpace))

/-- Go `strings.Trim(s, "'")`: strip leading and trailing single quotes. -/
def goTrimQuotes (s : String) : String :=
  String.mk (dropTail (fun c => c = quoteChar) (s.data.dropWhile (fun c => c = quoteChar)))

/-- Go `strings.TrimPrefix`. -/
def goTrimPre (s pre : String) : String :=
  if pre.data.isPrefixOf s.data then String.mk (s.data.drop pre.data.length) else s

/-- Go `strings.TrimSuffix`. -/
def goTrimSuf (s suf : String) : String :=
  if suf.data.isSuffixOf s.data then String.mk (s.data.take (s.data.length - suf.data.length)) else s

/-- Go `strings.HasPrefix`. -/
def goHasPre (s pre : String) : Bool := pre.data.isPrefixOf s.data

/-- Digits of an ASCII decimal numeral to a natural number. -/
def digitsToNat (l : List Char) : Nat :=
  l.foldl (fun a c => a * 10 + (c.toNat - 48)) 0

/-- Go `strconv.ParseInt(s, 10, 64)` (also `strconv.Atoi` on a 64-bit
platform): optional sign, one or more ASCII digits, value within the
`int64` range; `none` models a returned error. -/
def goParseInt64 (s : String) : Option Int :=
  let core : List Char → Int → Option Int := fun ds sign =>
    if ds.isEmpty then none
    else if ds.all Char.isDigit then
      let v : Int := sign * (digitsToNat ds : Int)
      if -(2 ^ 63) ≤ v ∧ v < 2 ^ 63 then some v else none
    else none
  match s.data with
  | '+' :: t => core t 1
  | '-' :: t => core t (-1)
  | t => core t 1

/-- Syntactic acceptance of Go `strconv.ParseFloat(s, 64)` on decimal
forms: optional sign; `inf`/`infinity`/`nan` (case-insensitive); or a
decimal mantissa with at least one digit and optional fraction, with an
optional decimal exponent.  (Hexadecimal floats, digit underscores and
the exponent-range error are not modelled; no claim depends on them.) -/
def floatSyntax (s : String) : Bool :=
  let body : List Char := match s.data with
    | '+' :: t => t
    | '-' :: t => t
    | t => t
  let lowered := String.mk (body.map asciiLower)
  if lowered = "inf" ∨ lowered = "infinity" ∨ lowered = "nan" then true
  else
    let intPart := body.takeWhile Char.isDigit
    let rest1 := body.drop intPart.length
    let afterMant : Option (List Char) :=
      match rest1 with
      | '.' :: t =>
        let frac := t.takeWhile Char.isDigit
        if intPart.isEmpty ∧ frac.isEmpty then none else some (t.drop frac.length)
      | r => if intPart.isEmpty then none else some r
    match afterMant with
    | none => false
    | some r =>
      match r with
      | [] => true
      | e :: t =>
        if e = 'e' ∨ e = 'E' then
          let digs : List Char := match t with
            | '+' :: u => u
            | '-' :: u => u
            | u => u
          ¬ digs.isEmpty ∧ digs.all Char.isDigit
        else false

/-- BSON values as constructed by the repository: integers, floats (kept
as their literal token — no claim inspects a float's numeric value),
strings, documents (`bson.M`/`bson.D` as ordered association lists; every
map literal in the source is written in a fixed key order) and arrays. -/
inductive BVal where
  | vInt (n : Int) : BVal
  | vFloat (tok : String) : BVal
  | vStr (s : String) : BVal
  | vDoc (m : List (String × BVal)) : BVal
  | vArr (xs : List BVal) : BVal

/-- A `bson.M` document: ordered association list of key/value pairs. -/
abbrev BsonM := List (String × BVal)

/-- A `bson.D` stage document (each pipeline stage in the source is a
one-entry `bson.D`). -/
abbrev BsonD := List (String × BVal)

/-- `mapOperatorToMongo` from the builder package: maps SQL-like operator
tokens to MongoDB operator tags, returning `""` for anything else. -/
def mapOperatorToMongo (op : String) : String :=
  if op = "=" then "$eq"
  else if op = ">" then "$gt"
  else if op = "<" then "$lt"
  else if op = ">=" then "$gte"
  else if op = "<=" then "$lte"
  else if op = "!=" then "$ne"
  else if op = "+" then "$add"
  else if op = "-" then "$subtract"
  else if op = "*" then "$multiply"
  else if op = "/" then "$divide"
  else ""

/-- `convertValue` from `builder/conditions.go`: try integer parse
(`strconv.Atoi`), then float parse (`strconv.ParseFloat`), else keep the
string. -/
def convertValue (value : String) : BVal :=
  match goParseInt64 value with
  | some n => .vInt n
  | none => if floatSyntax value then .vFloat value else .vStr value

/-- `parseCondition` from `builder/conditions.go`: a single condition must
split (on whitespace) into exactly three tokens, else the empty document
is returned; the value token loses surrounding single quotes. -/
def parseCondition (condition : String) : BsonM :=
  match goFields condition with
  | [field, operator, value] =>
    [(field, .vDoc [(mapOperatorToMongo operator, convertValue (goTrimQuotes value))])]
  | _ => []

/-- `parseConditions` from `builder/conditions.go`: trim, detect ` AND `
(first) or ` OR ` case-insensitively, split (case-sensitively, as in the
source) and wrap the parts in `$and`/`$or`; otherwise a single condition. -/
def parseConditions (conditions : String) : BsonM :=
  let c := goTrimSpace conditions
  if goContains (goToUpper c) " AND " then
    [("$and", .vArr ((goSplit c " AND ").map fun p => .vDoc (parseCondition (goTrimSpace p))))]
  else if goContains (goToUpper c) " OR " then
    [("$or", .vArr ((goSplit c " OR ").map fun p => .vDoc (parseCondition (goTrimSpace p))))]
  else parseCondition c

/-- `parseAlias` from the builder package: if ` AS ` occurs
case-insensitively, `SplitN(field, " AS ", 2)` and return the trimmed
second part; `none` models the Go panic (index out of range) that occurs
when the case-insensitive detection fired but the case-sensitive split
found nothing, so `parts` has a single element and `parts[1]` is read. -/
def parseAlias (field : String) : Option String :=
  if goContains (goToUpper field) " AS " then
    match goSplitN2 field " AS " with
    | [_, after] => some (goTrimSpace after)
    | _ => none
  else some field

/-- Character class `[\w\(\)\*]` of the `parseExpression` regular
expression (Go `\w` is `[0-9A-Za-z_]`). -/
def isOperandChar (c : Char) : Bool :=
  c.isAlphanum ∨ c = '_' ∨ c = '(' ∨ c = ')' ∨ c = '*'

/-- Character class `[+\-*/><=]` of the `parseExpression` regular
expression. -/
def isOpChar (c : Char) : Bool :=
  c = '+' ∨ c = '-' ∨ c = '*' ∨ c = '/' ∨ c = '>' ∨ c = '<' ∨ c = '='

/-- Character class `\s` of Go's regexp package (Perl class:
`[\t\n\f\r ]`). -/
def isReSpace (c : Char) : Bool :=
  c = '\t' ∨ c = '\n' ∨ c = Char.ofNat 12 ∨ c = '\r' ∨ c = ' '

/-- Backtracking over the length of the operator group: try the longest
run of operator characters first (greedy), then shorter; after it, `\s*`
and a non-empty run of operand characters must follow. -/
def tryOpGroup : Nat → List Char → Option (List Char × List Char)
  | 0, _ => none
  | k + 1, s =>
    let g2 := s.take (k + 1)
    let s2 := (s.drop (k + 1)).dropWhile isReSpace
    let g3 := s2.takeWhile isOperandChar
    if g3.isEmpty then tryOpGroup k s else some (g2, g3)

/-- Backtracking over the length of the first operand group (greedy,
longest first); the classes overlap only on `*`, and `\s*` cannot donate
characters to its neighbours, so this search order reproduces the
leftmost-first (Perl-style) semantics of Go's regexp engine on the
pattern `([\w\(\)\*]+)\s*([+\-*/><=]+)\s*([\w\(\)\*]+)`. -/
def tryOperandGroup : Nat → List Char → Option (List Char × List Char × List Char)
  | 0, _ => none
  | k + 1, s =>
    let g1 := s.take (k + 1)
    let s1 := (s.drop (k + 1)).dropWhile isReSpace
    match tryOpGroup (s1.takeWhile isOpChar).length s1 with
    | some (g2, g3) => some (g1, g2, g3)
    | none => tryOperandGroup k s

/-- `regexp.FindStringSubmatch` for the fixed `parseExpression` pattern:
the leftmost starting position admitting a match wins; returns the three
capture groups. -/
def findExprMatch : List Char → Option (List Char × List Char × List Char)
  | [] => none
  | c :: rest =>
    match tryOperandGroup ((c :: rest).takeWhile isOperandChar).length (c :: rest) with
    | some r => some r
    | none => findExprMatch rest

/-- `parseFieldOrValue` from the builder package: numeric literal first
(`strconv.ParseFloat`), then `SUM(`/`COUNT(` prefixes (detected
case-insensitively but stripped case-sensitively, as in the source), else
a field reference `$input`. -/
def parseFieldOrValue (input : String) : BVal :=
  let i := goTrimSpace input
  if floatSyntax i then .vFloat i
  else if goHasPre (goToUpper i) "SUM(" then
    .vDoc [("$sum", .vStr ("$" ++ goTrimSuf (goTrimPre i "SUM(") ")"))]
  else if goHasPre (goToUpper i) "COUNT(" then
    .vDoc [("$sum", .vInt 1)]
  else .vStr ("$" ++ i)

/-- `parseExpression` from the builder package: single-shot regular match
of `<operand> <operator> <operand>`; fails (`none`, modelling the Go
error) when no match is found or the operator does not map. -/
def parseExpression (expression : String) : Option BsonM :=
  let e := goTrimSpace expression
  match findExprMatch e.data with
  | none => none
  | some (o1, op, o2) =>
    let mongoOperator := mapOperatorToMongo (String.mk op)
    if mongoOperator = "" then none
    else some [("$expr", .vDoc [(mongoOperator,
      .vArr [parseFieldOrValue (String.mk o1), parseFieldOrValue (String.mk o2)])])]

/-- The `QueryBuilder` struct from `builder/base.go`. -/
structure QueryBuilder where
  Collection : String
  Fields : List String
  Group : BsonM
  Sort' : BsonM
  HavingCond : BsonM
  LimitVal : Int
  OffsetVal : Int
  Pipeline : List BsonD

/-- `NewQueryBuilder` from `builder/base.go`. -/
def NewQueryBuilder : QueryBuilder :=
  { Collection := "", Fields := [], Group := [], Sort' := [], HavingCond := []
    LimitVal := 0, OffsetVal := 0, Pipeline := [] }

namespace QueryBuilder

/-- `From` from `builder/base.go`. -/
def From (qb : QueryBuilder) (collection : String) : QueryBuilder :=
  { qb with Collection := collection }

/-- `Limit` from `builder/base.go`: only records the deferred limit. -/
def Limit (qb : QueryBuilder) (limit : Int) : QueryBuilder :=
  { qb with LimitVal := limit }

/-- `Offset` from `builder/base.go`: only records the deferred offset. -/
def Offset (qb : QueryBuilder) (offset : Int) : QueryBuilder :=
  { qb with OffsetVal := offset }

/-- `Join` from `builder/base.go`: appends a `$lookup` stage. -/
def Join (qb : QueryBuilder) (localField fromCollection foreignField as : String) : QueryBuilder :=
  { qb with Pipeline := qb.Pipeline ++ [[("$lookup", .vDoc
      [("from", .vStr fromCollection), ("localField", .vStr localField),
       ("foreignField", .vStr foreignField), ("as", .vStr as)])]] }

/-- `Match` from `builder/aggregation.go`: parse as an expression, fall
back to `parseConditions` on failure, append one `$match` stage. -/
def Match (qb : QueryBuilder) (condition : String) : QueryBuilder :=
  let filter : BsonM :=
    match parseExpression condition with
    | some f => f
    | none => parseConditions condition
  { qb with Pipeline := qb.Pipeline ++ [[("$match", .vDoc filter)]] }

/-- `Having` from the builder package: same dual parse as `Match`,
appending one `$match` stage. -/
def Having (qb : QueryBuilder) (condition : String) : QueryBuilder :=
  let filter : BsonM :=
    match parseExpression condition with
    | some f => f
    | none => parseConditions condition
  { qb with Pipeline := qb.Pipeline ++ [[("$match", .vDoc filter)]] }

/-- `GroupBy` from `builder/aggregation.go`. -/
def GroupBy (qb : QueryBuilder) (field : String) : QueryBuilder :=
  let g : BsonM := [("_id", .vStr ("$" ++ field))]
  { qb with Group := g, Pipeline := qb.Pipeline ++ [[("$group", .vDoc g)]] }

/-- `OrderBy` from `builder/aggregation.go`: split on a single space; an
exact two-token split produces one field/direction entry (`DESC`
case-insensitively is `-1`, anything else `1`); any other shape leaves
the sort document empty; a `$sort` stage is appended unconditionally. -/
def OrderBy (qb : QueryBuilder) (order : String) : QueryBuilder :=
  let sort : BsonM :=
    match goSplit order " " with
    | [f, d] => [(f, .vInt (if goToUpper d = "DESC" then -1 else 1))]
    | _ => []
  { qb with Sort' := sort, Pipeline := qb.Pipeline ++ [[("$sort", .vDoc sort)]] }

/-- `AggregationLimit` from `builder/aggregation.go`: for positive `n`,
records the deferred limit **and** appends a `$limit` stage immediately. -/
def AggregationLimit (qb : QueryBuilder) (n : Int) : QueryBuilder :=
  if n > 0 then
    { qb with LimitVal := n, Pipeline := qb.Pipeline ++ [[("$limit", .vInt n)]] }
  else qb

/-- `AggregationOffset` from `builder/aggregation.go`: for positive `n`,
appends a `$skip` stage immediately and leaves `OffsetVal` untouched. -/
def AggregationOffset (qb : QueryBuilder) (n : Int) : QueryBuilder :=
  if n > 0 then
    { qb with Pipeline := qb.Pipeline ++ [[("$skip", .vInt n)]] }
  else qb

/-- `Execute` from `builder/base.go`, up to the external driver call: an
error if no collection is set, else the compiled stage sequence — the
accumulated pipeline, then `$skip` if the deferred offset is positive,
then `$limit` if the deferred limit is positive. -/
def Execute (qb : QueryBuilder) : Except String (List BsonD) :=
  if qb.Collection = "" then .error "collection is not specified"
  else
    let p1 := if qb.OffsetVal > 0 then qb.Pipeline ++ [[("$skip", .vInt qb.OffsetVal)]] else qb.Pipeline
    let p2 := if qb.LimitVal > 0 then p1 ++ [[("$limit", .vInt qb.LimitVal)]] else p1
    .ok p2

end QueryBuilder

/-- `extractFields` from the parser package: on a `SELECT` head, the
comma-split field list up to ` FROM ` and the text after it; otherwise no
fields and the rejoined input. -/
def extractFields (parts : List String) : List String × String :=
  match parts with
  | [] => ([], "")
  | p0 :: restParts =>
    if goToUpper p0 ≠ "SELECT" then ([], String.intercalate " " parts)
    else
      let rest := String.intercalate " " restParts
      match goIndexOf (goToUpper rest) " FROM " with
      | some fromIndex =>
        let fields := goSplit (String.mk (rest.data.take fromIndex)) ","
        (fields.map goTrimSpace, String.mk (rest.data.drop (fromIndex + 6)))
      | none => (([] : List String).map goTrimSpace, rest)

/-- `extractCollection` from the parser package: `SplitN(query, " ", 2)`
then `parts[0], parts[1]`; `none` models the Go panic (index out of
range) when the query contains no space. -/
def extractCollection (query : String) : Option (String × String) :=
  match goSplitN2 query " " with
  | [coll, rest] => some (coll, rest)
  | _ => none

/-- `findNextKeyword` from the parser package: the keywords are probed in
the fixed list order and the first one present anywhere wins. -/
def findNextKeyword (query : String) : Option Nat :=
  match goIndexOf (goToUpper query) "WHERE" with
  | some i => some i
  | none =>
    match goIndexOf (goToUpper query) "GROUP BY" with
    | some i => some i
    | none =>
      match goIndexOf (goToUpper query) "HAVING" with
      | some i => some i
      | none =>
        match goIndexOf (goToUpper query) "ORDER BY" with
        | some i => some i
        | none => goIndexOf (goToUpper query) "LIMIT"

/-- `extractClause` from the parser package: the clause text runs from
just after the keyword to the next recognized keyword (or end of
string), both parts trimmed. -/
def extractClause (keyword query : String) : String × String :=
  match goIndexOf (goToUpper query) keyword with
  | none => ("", query)
  | some keywordIndex =>
    let remaining := String.mk (query.data.drop (keywordIndex + keyword.data.length))
    match findNextKeyword remaining with
    | none => (goTrimSpace remaining, "")
    | some nextKeywordIndex =>
      (goTrimSpace (String.mk (remaining.data.take nextKeywordIndex)),
       goTrimSpace (String.mk (remaining.data.drop nextKeywordIndex)))

/-- `parseLimit` from the parser package: `strconv.ParseInt(limit, 10, 64)`,
with any parse error replaced by the fixed message. -/
def parseLimit (limit : String) : Except String Int :=
  match goParseInt64 limit with
  | some n => .ok n
  | none => .error "invalid LIMIT value"

/-- The rest-of-query threading of one optional clause in `ParseSQL`: the
remainder is advanced only when the keyword is (case-insensitively)
present. -/
def stepClause (keyword rest : String) : String :=
  if goContains (goToUpper rest) keyword then (extractClause keyword rest).2 else rest

/-- The remainder string `ParseSQL` holds when it reaches its LIMIT
branch (`none` when `extractCollection` panics before that point). -/
def restBeforeLimit (q : String) : Option String :=
  match extractCollection (extractFields (goSplit (goTrimSpace q) " ")).2 with
  | none => none
  | some cr =>
    some (stepClause "ORDER BY" (stepClause "HAVING" (stepClause "GROUP BY" (stepClause "WHERE" cr.2))))

/-- `ParseSQL` from the parser package: extract SELECT fields and the FROM
collection, then optionally WHERE/GROUP BY/HAVING/ORDER BY/LIMIT in that
order, driving the corresponding builder calls; a bad LIMIT aborts the
whole parse with the error and no builder; `none` models the
`extractCollection` panic. -/
def ParseSQL (query : String) : Option (Except String QueryBuilder) :=
  let q := goTrimSpace query
  let fr := extractFields (goSplit q " ")
  match extractCollection fr.2 with
  | none => none
  | some cr =>
    let qb2 : QueryBuilder := { NewQueryBuilder with Fields := fr.1, Collection := cr.1 }
    let r1 := cr.2
    let qb3 := if goContains (goToUpper r1) "WHERE" then
        qb2.Match (goTrimSpace (extractClause "WHERE" r1).1) else qb2
    let r2 := stepClause "WHERE" r1
    let qb4 := if goContains (goToUpper r2) "GROUP BY" then
        qb3.GroupBy (goTrimSpace (extractClause "GROUP BY" r2).1) else qb3
    let r3 := stepClause "GROUP BY" r2
    let qb5 := if goContains (goToUpper r3) "HAVING" then
        qb4.Having (goTrimSpace (extractClause "HAVING" r3).1) else qb4
    let r4 := stepClause "HAVING" r3
    let qb6 := if goContains (goToUpper r4) "ORDER BY" then
        qb5.OrderBy (goTrimSpace (extractClause "ORDER BY" r4).1) else qb5
    let r5 := stepClause "ORDER BY" r4
    if goContains (goToUpper r5) "LIMIT" then
      match parseLimit (goTrimSpace (extractClause "LIMIT" r5).1) with
      | .error e => some (.error e)
      | .ok n => some (.ok (qb6.Limit n))
    else some (.ok qb6)

/-- Claim C1: on a builder with `Offset o` and `Limit l` both called
(`o > 0`, `l > 0`), in either order, the stage sequence compiled by
`Execute` is the accumulated pipeline followed by `Skip o` immediately
followed by `Limit l`; neither call appends a stage itself. -/
theorem c1_offset_limit_finalization (b : QueryBuilder) (o l : Int)
    (ho : 0 < o) (hl : 0 < l) (hc : b.Collection ≠ "") :
    ((b.Offset o).Limit l).Execute
      = .ok (b.Pipeline ++ [[("$skip", .vInt o)], [("$limit", .vInt l)]])
    ∧ ((b.Limit l).Offset o).Execute
      = .ok (b.Pipeline ++ [[("$skip", .vInt o)], [("$limit", .vInt l)]])
    ∧ (b.Offset o).Pipeline = b.Pipeline
    ∧ (b.Limit l).Pipeline = b.Pipeline := by
  refine ⟨?_, ?_, rfl, rfl⟩ <;>
    simp [QueryBuilder.Execute, QueryBuilder.Offset, QueryBuilder.Limit, hc, ho, hl]

/-- Witness for C1 at a concrete builder, `Offset 2` and `Limit 3`. -/
theorem c1_offset_limit_finalization_witness :
    (((NewQueryBuilder.From "orders").Offset 2).Limit 3).Execute
      = .ok ((NewQueryBuilder.From "orders").Pipeline ++
          [[("$skip", .vInt 2)], [("$limit", .vInt 3)]]) :=
  (c1_offset_limit_finalization (NewQueryBuilder.From "orders") 2 3
    (by decide) (by decide) (by decide)).1

/-- Claim C2: `parseConditions` detects ` AND ` / ` OR ` case-insensitively
on the trimmed input, with ` AND ` checked first, and produces an
`$and`/`$or` document over the parts of the corresponding split; the
example from the specification evaluates as claimed. -/
theorem c2_parseConditions_connectives :
    (∀ s : String, goContains (goToUpper (goTrimSpace s)) " AND " = true →
      parseConditions s = [("$and", .vArr ((goSplit (goTrimSpace s) " AND ").map
        fun p => .vDoc (parseCondition (goTrimSpace p))))])
    ∧ (∀ s : String, goContains (goToUpper (goTrimSpace s)) " AND " = false →
        goContains (goToUpper (goTrimSpace s)) " OR " = true →
      parseConditions s = [("$or", .vArr ((goSplit (goTrimSpace s) " OR ").map
        fun p => .vDoc (parseCondition (goTrimSpace p))))])
    ∧ parseConditions "price > 100 AND stock > 50" =
        [("$and", .vArr [.vDoc [("price", .vDoc [("$gt", .vInt 100)])],
                         .vDoc [("stock", .vDoc [("$gt", .vInt 50)])]])] := by
  refine ⟨fun s h => ?_, fun s h h' => ?_, rfl⟩
  · simp [parseConditions, h]
  · simp [parseConditions, h, h']

/-- Witness for C2: the AND branch fires on an input holding both
connectives (AND takes priority), the OR branch on an OR-only input. -/
theorem c2_parseConditions_connectives_witness :
    parseConditions "a AND b OR c" = [("$and", .vArr
      ((goSplit (goTrimSpace "a AND b OR c") " AND ").map
        fun p => .vDoc (parseCondition (goTrimSpace p))))]
    ∧ parseConditions "a OR b" = [("$or", .vArr
      ((goSplit (goTrimSpace "a OR b") " OR ").map
        fun p => .vDoc (parseCondition (goTrimSpace p))))] :=
  ⟨c2_parseConditions_connectives.1 "a AND b OR c" (by decide),
   c2_parseConditions_connectives.2.1 "a OR b" (by decide) (by decide)⟩

/-- Counterexample to claim C3: the three-token condition
`price foo 100` is accepted by the single-condition parser yet the
produced comparison carries the empty operator tag — the mapper's
not-mapped result — because `parseCondition` never checks the mapper's
output. -/
theorem c3_unmapped_operator_cex :
    goFields "price foo 100" = ["price", "foo", "100"]
    ∧ parseCondition "price foo 100" = [("price", .vDoc [("", .vInt 100)])]
    ∧ mapOperatorToMongo "foo" = "" :=
  ⟨by decide, rfl, by decide⟩

/-- Claim C3 as amended: for every three-token condition the comparison's
operator tag is exactly `mapOperatorToMongo` of the middle token, which
is non-empty precisely when that token is one of the mapper's ten
recognized operators — an unrecognized middle token yields the empty
tag, not a failure. -/
theorem c3_comparison_operator (s f op v : String)
    (h : goFields s = [f, op, v]) :
    parseCondition s = [(f, .vDoc [(mapOperatorToMongo op, convertValue (goTrimQuotes v))])]
    ∧ (mapOperatorToMongo op ≠ "" ↔
        op ∈ (["=", ">", "<", ">=", "<=", "!=", "+", "-", "*", "/"] : List String)) := by
  constructor
  · simp [parseCondition, h]
  · unfold mapOperatorToMongo
    split_ifs <;> first | (subst_vars; decide) | simp_all

/-- Witness for C3 (amended) at the condition `price > 100`. -/
theorem c3_comparison_operator_witness :
    parseCondition "price > 100"
      = [("price", .vDoc [(mapOperatorToMongo ">", convertValue (goTrimQuotes "100"))])]
    ∧ (mapOperatorToMongo ">" ≠ "" ↔
        (">" : String) ∈ (["=", ">", "<", ">=", "<=", "!=", "+", "-", "*", "/"] : List String)) :=
  c3_comparison_operator "price > 100" "price" ">" "100" (by decide)

/-- Claim C4: any condition that does not split into exactly three
whitespace-separated tokens yields the empty (always-true) document, and
compiling the single-token condition `price` through `Match` appends an
empty `$match` stage to any builder rather than failing. -/
theorem c4_lenient_fallback :
    (∀ s : String, (goFields s).length ≠ 3 → parseCondition s = [])
    ∧ (∀ qb : QueryBuilder, qb.Match "price"
        = { qb with Pipeline := qb.Pipeline ++ [[("$match", .vDoc [])]] }) := by
  constructor
  · intro s h
    unfold parseCondition
    split <;> simp_all
  · intro qb
    rfl

/-- Witness for C4 at the single-token condition `price`. -/
theorem c4_lenient_fallback_witness :
    parseCondition "price" = []
    ∧ NewQueryBuilder.Match "price"
        = { NewQueryBuilder with Pipeline := NewQueryBuilder.Pipeline ++ [[("$match", .vDoc [])]] } :=
  ⟨c4_lenient_fallback.1 "price" (by decide), c4_lenient_fallback.2 NewQueryBuilder⟩

/-- Claim C5: `Match` and `Having` use the expression parse when it
succeeds and fall back to `parseConditions` exactly when it fails; in
both cases exactly one `$match` stage is appended and the call is total
(no error reaches the caller). -/
theorem c5_match_having_dual_parse (qb : QueryBuilder) (c : String) :
    (∀ f, parseExpression c = some f →
        qb.Match c = { qb with Pipeline := qb.Pipeline ++ [[("$match", .vDoc f)]] }
        ∧ qb.Having c = { qb with Pipeline := qb.Pipeline ++ [[("$match", .vDoc f)]] })
    ∧ (parseExpression c = none →
        qb.Match c = { qb with Pipeline := qb.Pipeline ++ [[("$match", .vDoc (parseConditions c))]] }
        ∧ qb.Having c = { qb with Pipeline := qb.Pipeline ++ [[("$match", .vDoc (parseConditions c))]] })
    ∧ (qb.Match c).Pipeline.length = qb.Pipeline.length + 1
    ∧ (qb.Having c).Pipeline.length = qb.Pipeline.length + 1 := by
  refine ⟨fun f h => ?_, fun h => ?_, ?_, ?_⟩ <;>
    cases h' : parseExpression c <;>
      simp_all [QueryBuilder.Match, QueryBuilder.Having]

/-- Witness for C5: the fallback branch at the unparseable condition
`price` and the expression branch at `SUM(amount) > 5000`. -/
theorem c5_match_having_dual_parse_witness :
    NewQueryBuilder.Match "price"
      = { NewQueryBuilder with
          Pipeline := NewQueryBuilder.Pipeline ++ [[("$match", .vDoc (parseConditions "price"))]] }
    ∧ NewQueryBuilder.Match "SUM(amount) > 5000"
      = { NewQueryBuilder with
          Pipeline := NewQueryBuilder.Pipeline ++ [[("$match", .vDoc
            [("$expr", .vDoc [("$gt", .vArr [.vDoc [("$sum", .vStr "$amount")], .vFloat "5000"])])])]] } :=
  ⟨((c5_match_having_dual_parse NewQueryBuilder "price").2.1 rfl).1,
   ((c5_match_having_dual_parse NewQueryBuilder "SUM(amount) > 5000").1
      [("$expr", .vDoc [("$gt", .vArr [.vDoc [("$sum", .vStr "$amount")], .vFloat "5000"])])] rfl).1⟩

/-- Counterexample to claim C6: the malformed order string `price` (one
token) does not get the claimed ascending default — the appended `$sort`
stage carries an empty sort document, with no field and no `+1`
direction. -/
theorem c6_orderBy_malformed_cex :
    (NewQueryBuilder.OrderBy "price").Sort' = []
    ∧ (NewQueryBuilder.OrderBy "price").Sort' ≠ [("price", .vInt 1)]
    ∧ (NewQueryBuilder.OrderBy "price").Pipeline = [[("$sort", .vDoc [])]] :=
  ⟨rfl, (by intro h; rw [show (NewQueryBuilder.OrderBy "price").Sort' = [] from rfl] at h; cases h), rfl⟩

/-- Claim C6 as amended: `OrderBy` appends a `$sort` stage on every call;
when the order string splits (on a single space) into exactly two tokens
the sort document maps the field to `-1` for a case-insensitive `DESC`
direction and to `+1` for anything else, and when it does not split into
exactly two tokens the sort document is empty. -/
theorem c6_orderBy_semantics (qb : QueryBuilder) (order : String) :
    (qb.OrderBy order).Pipeline
      = qb.Pipeline ++ [[("$sort", .vDoc ((qb.OrderBy order).Sort'))]]
    ∧ (∀ f d, goSplit order " " = [f, d] →
        (qb.OrderBy order).Sort' = [(f, .vInt (if goToUpper d = "DESC" then -1 else 1))])
    ∧ ((goSplit order " ").length ≠ 2 → (qb.OrderBy order).Sort' = []) := by
  refine ⟨?_, fun f d h => ?_, fun h => ?_⟩ <;>
    unfold QueryBuilder.OrderBy <;> split <;> simp_all

/-- Witness for C6 (amended) at `price desc` (two tokens, lower-case
direction) and `price` (one token). -/
theorem c6_orderBy_semantics_witness :
    (NewQueryBuilder.OrderBy "price desc").Sort'
      = [("price", .vInt (if goToUpper "desc" = "DESC" then -1 else 1))]
    ∧ (NewQueryBuilder.OrderBy "price").Sort' = [] :=
  ⟨(c6_orderBy_semantics NewQueryBuilder "price desc").2.1 "price" "desc" (by decide),
   (c6_orderBy_semantics NewQueryBuilder "price").2.2 (by decide)⟩

/-- Claim C7 is wrong about the code: on `SUM(amount) as totalAmount` the
case-insensitive detection of ` AS ` fires, but the split itself is
case-sensitive, finds nothing, and the read of `parts[1]` panics (index
out of range, modelled by `none`) — the resolver does fail, instead of
returning the trimmed alias; the upper-case separator works as described,
and an alias-free spec defaults to the raw spec. -/
theorem c7_parseAlias_lowercase_panic :
    goContains (goToUpper "SUM(amount) as totalAmount") " AS " = true
    ∧ (goSplitN2 "SUM(amount) as totalAmount" " AS ").length = 1
    ∧ parseAlias "SUM(amount) as totalAmount" = none
    ∧ parseAlias "SUM(amount) AS totalAmount" = some "totalAmount"
    ∧ parseAlias "SUM(amount)" = some "SUM(amount)" := by
  refine ⟨by decide, by decide, rfl, ?_, rfl⟩
  decide

/-- Counterexample to claim C8: the operator mapper maps the arithmetic
token `+` (outside the claimed comparison set) to the non-empty tag
`$add`, not to the empty result. -/
theorem c8_mapper_arith_cex :
    mapOperatorToMongo "+" = "$add"
    ∧ ("$add" : String) ≠ ""
    ∧ ("+" : String) ∉ (["=", "!=", "<", ">", "<=", ">="] : List String) := by
  decide

/-- Claim C8 as amended: the mapper returns a non-empty tag for every
token in `{=, !=, <, >, <=, >=, +, -, *, /}` and the empty result for
every token outside that set. -/
theorem c8_mapper_domain (t : String) :
    (t ∈ (["=", "!=", "<", ">", "<=", ">=", "+", "-", "*", "/"] : List String) →
      mapOperatorToMongo t ≠ "")
    ∧ (t ∉ (["=", "!=", "<", ">", "<=", ">=", "+", "-", "*", "/"] : List String) →
      mapOperatorToMongo t = "") := by
  constructor
  · intro h
    fin_cases h <;> decide
  · intro h
    unfold mapOperatorToMongo
    split_ifs <;> simp_all

/-- Witness for C8 (amended) at the mapped token `=` and the unmapped
token `LIKE`. -/
theorem c8_mapper_domain_witness :
    mapOperatorToMongo "=" ≠ "" ∧ mapOperatorToMongo "LIKE" = "" :=
  ⟨(c8_mapper_domain "=").1 (by decide), (c8_mapper_domain "LIKE").2 (by decide)⟩

/-- Counterexample to claim C9: the LIMIT value is not restricted to
non-negative integers — `parseLimit` accepts the signed value `-5`, and
the whole statement `SELECT a FROM orders LIMIT -5` parses successfully
into a builder whose deferred limit is `-5`. -/
theorem c9_negative_limit_cex :
    parseLimit "-5" = .ok (-5)
    ∧ ParseSQL "SELECT a FROM orders LIMIT -5"
      = some (.ok { Collection := "orders", Fields := ["a"], Group := [], Sort' := [],
                    HavingCond := [], LimitVal := -5, OffsetVal := 0, Pipeline := [] }) :=
  ⟨rfl, rfl⟩

/-- Claim C9 as amended: the LIMIT clause value is parsed as a plain
(optionally signed) base-10 `int64`; whenever the clause text reaching
the LIMIT branch does not parse as such an integer, `ParseSQL` aborts the
whole parse with the `invalid LIMIT value` error and returns no
builder. -/
theorem c9_bad_limit_aborts (q r : String)
    (hr : restBeforeLimit q = some r)
    (hl : goContains (goToUpper r) "LIMIT" = true)
    (hp : goParseInt64 (goTrimSpace (extractClause "LIMIT" r).1) = none) :
    ParseSQL q = some (.error "invalid LIMIT value") := by
  unfold restBeforeLimit at hr
  unfold ParseSQL
  cases hE : extractCollection (extractFields (goSplit (goTrimSpace q) " ")).2 with
  | none => rw [hE] at hr; cases hr
  | some cr =>
    rw [hE] at hr
    simp only [Option.some.injEq] at hr
    simp only [hE]
    rw [hr, hl]
    simp [parseLimit, hp]

/-- Witness for C9 (amended): the non-numeric LIMIT value `abc` aborts
the parse of the whole statement. -/
theorem c9_bad_limit_aborts_witness :
    ParseSQL "SELECT a FROM orders LIMIT abc" = some (.error "invalid LIMIT value") :=
  c9_bad_limit_aborts "SELECT a FROM orders LIMIT abc" "LIMIT abc"
    (by decide) (by decide) (by decide)

/-- Claim C10: for `n > 0`, `AggregationLimit n` appends a `$limit` stage
immediately **and** records the deferred limit, so finalizing a fresh
builder afterwards compiles a second `$limit n`; `AggregationOffset n`
appends a `$skip` stage immediately but leaves the deferred offset
untouched, so finalization compiles no second `$skip`. -/
theorem c10_aggregation_limit_offset (qb : QueryBuilder) (n : Int) (hn : 0 < n) :
    qb.AggregationLimit n
      = { qb with LimitVal := n, Pipeline := qb.Pipeline ++ [[("$limit", .vInt n)]] }
    ∧ qb.AggregationOffset n
      = { qb with Pipeline := qb.Pipeline ++ [[("$skip", .vInt n)]] }
    ∧ (qb.AggregationOffset n).OffsetVal = qb.OffsetVal
    ∧ (∀ c : String, c ≠ "" →
        ((NewQueryBuilder.From c).AggregationLimit n).Execute
          = .ok [[("$limit", .vInt n)], [("$limit", .vInt n)]]
        ∧ ((NewQueryBuilder.From c).AggregationOffset n).Execute
          = .ok [[("$skip", .vInt n)]]) := by
  refine ⟨?_, ?_, ?_, fun c hc => ?_⟩
  · simp [QueryBuilder.AggregationLimit, hn]
  · simp [QueryBuilder.AggregationOffset, hn]
  · simp [QueryBuilder.AggregationOffset, hn]
  · constructor <;>
      simp [QueryBuilder.AggregationLimit, QueryBuilder.AggregationOffset,
        QueryBuilder.Execute, QueryBuilder.From, NewQueryBuilder, hn, hc]

/-- Witness for C10 at `n = 5` on a fresh builder over collection
`orders`. -/
theorem c10_aggregation_limit_offset_witness :
    ((NewQueryBuilder.From "orders").AggregationLimit 5).Execute
      = .ok [[("$limit", .vInt 5)], [("$limit", .vInt 5)]]
    ∧ ((NewQueryBuilder.From "orders").AggregationOffset 5).Execute
      = .ok [[("$skip", .vInt 5)]] :=
  (c10_aggregation_limit_offset NewQueryBuilder 5 (by decide)).2.2.2 "orders" (by decide)

end MQ
